import Mathlib

/-!
Shallow embedding of the FPL mini-league server (`server.js`) of
`fpl-app-v2`, together with proofs of the specified properties of its
scoring logic.

Conventions of the embedding:
* JS numbers holding FPL points and entry ids are embedded as `Int`
  (all arithmetic performed on them is exact integer arithmetic).
* JS objects used as string-keyed maps (`captains.byGw`, the per-gameweek
  captain maps, the per-entry points map) are embedded as association
  lists `List (String × _)` / functions; property lookup is `lookupStr`.
* The upstream FPL API is embedded as an oracle
  `Upstream : Int → String → FetchOutcome` giving, per entry id and
  per gameweek path segment, the outcome of
  `fetchOfficialPoints` (network/HTTP failure, a 200 response whose
  `entry_history.points` is not a number, or a numeric points value).
* JS string `toLowerCase`/`<=` are embedded by `lowerStr`/`jsStrLe`
  (ASCII lowercasing and code-point lexicographic comparison; the squad
  names and prefixes involved are within that fragment).
-/

/-- JS whitespace characters relevant to `trim` / `\s` for the strings
handled here. -/
def isJsWs (c : Char) : Bool :=
  c = ' ' || c = '\t' || c = '\n' || c = '\r' || c = '\x0b' || c = '\x0c'

/-- `String.prototype.trim`: strip leading and trailing whitespace. -/
def trimJs (s : String) : String :=
  ⟨((s.data.dropWhile isJsWs).reverse.dropWhile isJsWs).reverse⟩

/-- ASCII lowercasing of a string, embedding `String.prototype.toLowerCase`
on the ASCII fragment. -/
def lowerStr (s : String) : String := ⟨s.data.map Char.toLower⟩

/-- Lexicographic `≤` on char lists by code point. -/
def lexLe : List Char → List Char → Bool
  | [], _ => true
  | _ :: _, [] => false
  | a :: as, b :: bs => if a < b then true else if b < a then false else lexLe as bs

/-- Embedding of the JS string comparison `name1 <= name2`
(lexicographic by code unit; code point on the fragment used here). -/
def jsStrLe (a b : String) : Bool := lexLe a.data b.data

/-- Association-list lookup, embedding JS string-keyed property access
`obj[k]` (present → the value, absent → `undefined`, i.e. `none`). -/
def lookupStr {β : Type} (l : List (String × β)) (k : String) : Option β :=
  (l.find? (fun p => p.1 == k)).map (fun p => p.2)

/-- Association-list update, embedding the JS assignment `obj[k] = v`. -/
def setKey {β : Type} (l : List (String × β)) (k : String) (v : β) :
    List (String × β) :=
  if (l.find? (fun p => p.1 == k)).isSome then
    l.map (fun p => if p.1 == k then (k, v) else p)
  else l ++ [(k, v)]

/-- A row of the league standings as consumed by `buildPairs`
(fields `entry`, `entry_name`, `player_name` of the FPL standings API). -/
structure Entry where
  entry : Int
  entry_name : String
  player_name : String
deriving DecidableEq, Repr

/-- A resolved member of a pair, as built by `buildPairs`
(`{ entryId, entryName, managerName }`; the `points: null` placeholder
field is not carried since it is never read before being replaced). -/
structure Member where
  entryId : Int
  entryName : String
  managerName : String
deriving DecidableEq, Repr

/-- A team as produced by `buildPairs`: either two resolved members and
no error, or an empty member list and an error message. -/
structure Pair where
  name : String
  members : List Member
  error : Option String
deriving DecidableEq, Repr

/-- The persisted captains structure `{ byGw: { [gw]: { [teamName]: entryId } } }`. -/
structure Captains where
  byGw : List (String × List (String × Int))
deriving DecidableEq, Repr

/-- Outcome of one call of `fetchOfficialPoints(entryId, gw)`:
the fetch throws (HTTP error / network failure), or returns JSON whose
`entry_history.points` is missing / not a number, or returns a numeric
points value. -/
inductive FetchOutcome where
  | fetchError
  | okNoPoints
  | okPoints (p : Int)
deriving DecidableEq, Repr

/-- The upstream FPL picks endpoint as an oracle: entry id and gameweek
path segment to fetch outcome. -/
def Upstream : Type := Int → String → FetchOutcome

/-- The per-entry points value recorded by the worker loop of
`computeScoresForGw`: `fetchOfficialPoints` returns
`typeof pts === 'number' ? pts : 0` and a thrown error is caught as
`entryPoints[entryId] = 0`.  (The later `entryPoints[id] || 0` read is
the identity on these values.) -/
def pointsFor (u : Upstream) (gwKey : String) (e : Int) : Int :=
  match u e gwKey with
  | .fetchError => 0
  | .okNoPoints => 0
  | .okPoints p => p

/-- The automatic captain choice of `computeScoresForGw`: the member
with strictly fewer points, ties broken by the case-insensitively
lexicographically smaller squad name (`name1 <= name2 ? m1 : m2`). -/
def autoCaptainId (m1 m2 : Member) (pts1 pts2 : Int) : Int :=
  if pts1 < pts2 then m1.entryId
  else if pts2 < pts1 then m2.entryId
  else if jsStrLe (lowerStr m1.entryName) (lowerStr m2.entryName) then m1.entryId
  else m2.entryId

/-- The test
`!captainEntryId || (captainEntryId !== m1.entryId && captainEntryId !== m2.entryId)`
deciding automatic captain selection (`none` embeds `undefined`, falsy;
a numeric `0` is also falsy). -/
def isFalsyOrInvalid (cid : Option Int) (id1 id2 : Int) : Bool :=
  match cid with
  | none => true
  | some c => c == 0 || (c != id1 && c != id2)

/-- A member as it appears in a result row of `computeScoresForGw`
(`{ entryId, squadName, manager, points }`). -/
structure MemberOut where
  entryId : Int
  squadName : String
  manager : String
  points : Int
deriving DecidableEq, Repr

/-- A non-error result row of `computeScoresForGw`. -/
structure OkResult where
  teamName : String
  members : List MemberOut
  captainEntryId : Int
  captainPoints : Int
  autoLowest : Bool
  teamPoints : Int
deriving DecidableEq, Repr

/-- A result row of `computeScoresForGw`: the error rows
`{ name, error }` or the full rows. -/
inductive TeamResult where
  | err (name : String) (msg : String)
  | ok (r : OkResult)
deriving DecidableEq, Repr

/-- The per-team body of the result loop of `computeScoresForGw`
(server.js lines 238–271), for a team with members `m1`, `m2`. -/
def scoreTeam (gwKey : String) (captains : Captains) (u : Upstream)
    (teamName : String) (m1 m2 : Member) : OkResult :=
  let pts1 := pointsFor u gwKey m1.entryId
  let pts2 := pointsFor u gwKey m2.entryId
  let captainsForGw := (lookupStr captains.byGw gwKey).getD []
  let cid0 := lookupStr captainsForGw teamName
  let autoLowest := isFalsyOrInvalid cid0 m1.entryId m2.entryId
  let captainEntryId :=
    if autoLowest then autoCaptainId m1 m2 pts1 pts2 else cid0.getD 0
  let captainPoints := if captainEntryId == m1.entryId then pts1 else pts2
  let teamPoints := pts1 + pts2 + captainPoints
  { teamName := teamName
    members := [⟨m1.entryId, m1.entryName, m1.managerName, pts1⟩,
                ⟨m2.entryId, m2.entryName, m2.managerName, pts2⟩]
    captainEntryId := captainEntryId
    captainPoints := captainPoints
    autoLowest := autoLowest
    teamPoints := teamPoints }

/-- One iteration of the result loop of `computeScoresForGw`: teams
without exactly two members become error rows
(`{ name: p.name, error: p.error || 'Invalid team definition' }`). -/
def resultFor (gwKey : String) (captains : Captains) (u : Upstream)
    (p : Pair) : TeamResult :=
  match p.members with
  | [m1, m2] => .ok (scoreTeam gwKey captains u p.name m1 m2)
  | _ => .err p.name (p.error.getD "Invalid team definition")

/-- The team points key of a result row as read by the sort comparator
`(a, b) => b.teamPoints - a.teamPoints`: error rows have no `teamPoints`
property (`undefined`, making the comparator evaluate to `NaN`, which
the sort treats as `+0`). -/
def TeamResult.teamPointsOpt : TeamResult → Option Int
  | .err _ _ => none
  | .ok r => some r.teamPoints

/-- `teamPoints` of a result row, defaulting to `0` on error rows (used
only to state sortedness over rows that all carry `teamPoints`). -/
def TeamResult.teamPointsD (t : TeamResult) : Int := t.teamPointsOpt.getD 0

/-- Whether a result row is a full (non-error) row. -/
def TeamResult.isOk (t : TeamResult) : Bool := t.teamPointsOpt.isSome

/-- "`a` may stay before `b`" for the comparator
`(a, b) => b.teamPoints - a.teamPoints`: nonpositive comparator value,
i.e. `b.teamPoints ≤ a.teamPoints`; a comparison involving an error row
yields `NaN`, which the sort treats as `0` (a tie). -/
def keepsBefore (a b : TeamResult) : Bool :=
  match a.teamPointsOpt, b.teamPointsOpt with
  | some x, some y => decide (y ≤ x)
  | _, _ => true

/-- The ranking step `results.sort((a, b) => b.teamPoints - a.teamPoints)`:
the ECMAScript sort is stable, and with the consistent comparator above
(all rows carrying `teamPoints`) its output is the unique stable
descending reordering, here realised by insertion sort on `keepsBefore`. -/
def sortResults (l : List TeamResult) : List TeamResult :=
  l.insertionSort (fun a b => keepsBefore a b = true)

/-- `computeScoresForGw(gw, pairs, captains)`: one result row per pair,
sorted by `teamPoints` descending.  `gwKey` is the gameweek value the
handler passes through (`parts[2]`, the raw path segment). -/
def computeScoresForGw (gwKey : String) (pairs : List Pair)
    (captains : Captains) (u : Upstream) : List TeamResult :=
  sortResults (pairs.map (resultFor gwKey captains u))

/-- Separator characters accepted by `hasPrefix` after the prefix:
hyphen, en dash, em dash, colon. -/
def isSepChar (c : Char) : Bool :=
  c = '-' || c = '–' || c = '—' || c = ':'

/-- Case-insensitive prefix match of `buildPairs`' helper over char
lists: the prefix characters, then a separator or whitespace. -/
def hasPrefixAux : List Char → List Char → Bool
  | s, [] =>
    match s with
    | [] => false
    | c :: _ => isSepChar c || isJsWs c
  | [], _ :: _ => false
  | c :: s, q :: qs =>
    if c.toLower = q.toLower then hasPrefixAux s qs else false

/-- The helper `hasPrefix(entryName, pref)` of `buildPairs`: after
trimming, the squad name must start (case-insensitively) with the
prefix followed by a separator (`-`, `–`, `—`, `:`) or whitespace —
the regex `^\s*P(?:\s*[-–—:]\s*|\s+)` applied to the trimmed name. -/
def hasPrefix (entryName : String) (pref : String) : Bool :=
  hasPrefixAux (trimJs entryName).data (trimJs pref).data

/-- The hardcoded `ABBREVIATIONS` map (team name → squad-name prefix). -/
def ABBREVIATIONS : List (String × String) :=
  [("Banter Bros", "BAB"), ("Bianconeri Blues", "BIB"), ("Dark Knights", "DK"),
   ("Despicable Memelennials", "DM"), ("Footballing Gods", "FG"),
   ("Highbury Citizens", "HC"), ("Invisible Royals", "IR"), ("JoBros", "JB"),
   ("Jota Ke Chhorey", "JKC"), ("Merseyside Mancunians", "MM"),
   ("Odia Outlaws", "OO"), ("Royal Indians", "RI"), ("Team Rocket", "TR"),
   ("Scouse Force", "SF"), ("Slippery Legends", "SL"),
   ("The Anfield Devils", "TAD"), ("Blaugrana Cules", "BC"),
   ("Filthy Foxes", "FF"), ("Goal Diggers", "GD"), ("Jama Juggernauts", "JJ"),
   ("Maresca's Villagers", "MV"), ("NorthEastern Hillibillies", "NEH"),
   ("Peaky Blinders", "PB"), ("Reds Of Winterfell", "RW"),
   ("Scarlet Reds", "SR"), ("Sharingan Warriors", "SW"),
   ("Stretford Kops", "SK"), ("Super Saiyan", "SS"), ("Royal Reds", "RR"),
   ("The Invincibles", "INV"), ("Thunderbolts", "TB"), ("xG Xorcists", "XGX")]

/-- One iteration of the `buildPairs` loop for the team/prefix pair
`tp`: exactly two matching standings rows give the two members, any
other count gives an error entry with no members. -/
def pairFor (standings : List Entry) (tp : String × String) : Pair :=
  let ms := standings.filter (fun r => hasPrefix r.entry_name tp.2)
  if ms.length ≠ 2 then
    ⟨tp.1, [],
     some ("Found " ++ toString ms.length ++ " squads with prefix " ++ tp.2)⟩
  else
    ⟨tp.1, ms.map (fun m => ⟨m.entry, m.entry_name, m.player_name⟩), none⟩

/-- `buildPairs()` over given standings: one `Pair` per `ABBREVIATIONS`
entry, in configuration order. -/
def buildPairs (standings : List Entry) : List Pair :=
  ABBREVIATIONS.map (pairFor standings)

/-- Value of the digit prefix of a char list, `none` when it is empty
(the digit-collection core of `parseInt(s, 10)`). -/
def digitsVal (cs : List Char) : Option Nat :=
  match cs.takeWhile Char.isDigit with
  | [] => none
  | ds => some (ds.foldl (fun acc c => 10 * acc + (c.toNat - 48)) 0)

/-- `parseInt(s, 10)`: skip leading whitespace, optional sign, then the
longest digit prefix; no digits → `NaN` (`none`).  Trailing
non-digit characters are ignored. -/
def parseIntJs (s : String) : Option Int :=
  match s.data.dropWhile isJsWs with
  | '-' :: rest => (digitsVal rest).map (fun n => -(n : Int))
  | '+' :: rest => (digitsVal rest).map (fun n => (n : Int))
  | rest => (digitsVal rest).map (fun n => (n : Int))

/-- The responses of `handleRequest` distinguishable at the API level. -/
inductive Response where
  | badRequest (msg : String)
  | okGw (gw : Int) (results : List TeamResult)
  | okPairs (pairs : List Pair)
  | okAbbreviations (abbrs : List (String × String))
  | okCaptains (m : List (String × Int))
  | okStatus
  | notFound
  | staticFile
deriving DecidableEq, Repr

/-- The API dispatch of `handleRequest` for a path under `/api/`.
`parts` is `url.pathname.split('/').filter(Boolean)`; `body` is the
parsed JSON body of a POST (`none` embeds an unparseable body, a falsy
parsed body is embedded as `some []` following `body || {}`).  Returns
the response together with the captains store as persisted afterwards. -/
def handleApi (method : String) (parts : List String)
    (body : Option (List (String × Int))) (pairs : List Pair)
    (u : Upstream) (st : Captains) : Response × Captains :=
  if parts.get? 1 = some "gw" ∧ method = "GET" ∧ parts.length = 3 then
    let s := parts.getD 2 ""
    match parseIntJs s with
    | none => (.badRequest "Invalid gameweek", st)
    | some g =>
      if g < 1 ∨ 38 < g then (.badRequest "Invalid gameweek", st)
      else (.okGw g (computeScoresForGw s pairs st u), st)
  else if parts.get? 1 = some "pairs" ∧ method = "GET" then
    (.okPairs pairs, st)
  else if parts.get? 1 = some "abbreviations" ∧ method = "GET" then
    (.okAbbreviations ABBREVIATIONS, st)
  else if parts.get? 1 = some "captains" ∧ parts.length = 3 then
    let gwKey := parts.getD 2 ""
    if method = "GET" then
      (.okCaptains ((lookupStr st.byGw gwKey).getD []), st)
    else if method = "POST" then
      match body with
      | none => (.badRequest "Invalid JSON body", st)
      | some m => (.okStatus, ⟨setKey st.byGw gwKey m⟩)
    else (.notFound, st)
  else (.notFound, st)

/-- `handleRequest`: requests whose pathname starts with `/api/` go to
the API dispatch, everything else is served from the static directory
(out of scope, collapsed to `staticFile`). -/
def handleRequest (method : String) (parts : List String)
    (body : Option (List (String × Int))) (pairs : List Pair)
    (u : Upstream) (st : Captains) : Response × Captains :=
  if parts.head? = some "api" then handleApi method parts body pairs u st
  else (.staticFile, st)

/-! ### Helper lemmas -/

theorem lexLe_total (a b : List Char) : lexLe a b = true ∨ lexLe b a = true := by
  induction a generalizing b with
  | nil => left; rfl
  | cons c cs ih =>
    cases b with
    | nil => right; rfl
    | cons d ds =>
      by_cases hcd : c < d
      · left; simp [lexLe, hcd]
      · by_cases hdc : d < c
        · right; simp [lexLe, hdc, hcd]
        · rcases ih ds with h | h
          · left; simp [lexLe, hcd, hdc, h]
          · right; simp [lexLe, hcd, hdc, h]

theorem jsStrLe_total (a b : String) : jsStrLe a b = true ∨ jsStrLe b a = true :=
  lexLe_total a.data b.data

/-! ### Claim theorems: captain rule -/

/-- Claim C1: for a team of two members with fetched points `p1 < p2` and no
explicit captain assigned for the gameweek, `computeScoresForGw`'s
per-team computation auto-selects the member with `p1` as captain and
returns `teamPoints = p1 + p2 + p1`. -/
theorem claim1_auto_captain_lower (gwKey : String) (caps : Captains)
    (u : Upstream) (p : Pair) (m1 m2 : Member) (p1 p2 : Int)
    (hm : p.members = [m1, m2])
    (hnone : lookupStr ((lookupStr caps.byGw gwKey).getD []) p.name = none)
    (hp1 : pointsFor u gwKey m1.entryId = p1)
    (hp2 : pointsFor u gwKey m2.entryId = p2)
    (hlt : p1 < p2) :
    resultFor gwKey caps u p = .ok (scoreTeam gwKey caps u p.name m1 m2) ∧
    (scoreTeam gwKey caps u p.name m1 m2).autoLowest = true ∧
    (scoreTeam gwKey caps u p.name m1 m2).captainEntryId = m1.entryId ∧
    (scoreTeam gwKey caps u p.name m1 m2).captainPoints = p1 ∧
    (scoreTeam gwKey caps u p.name m1 m2).teamPoints = p1 + p2 + p1 := by
  refine ⟨by simp [resultFor, hm], ?_, ?_, ?_, ?_⟩ <;>
    simp [scoreTeam, hnone, hp1, hp2, isFalsyOrInvalid, autoCaptainId, hlt]

/-- Witness for C1 at the spec's scenario: points 45 and 60, no explicit
captain; the 45-scorer is captain and the total is 150. -/
theorem claim1_auto_captain_lower_witness :
    (⟨"Banter Bros", [⟨1, "BAB-A", "p"⟩, ⟨2, "BAB-B", "q"⟩], none⟩ :
        Pair).members = [⟨1, "BAB-A", "p"⟩, ⟨2, "BAB-B", "q"⟩] ∧
    lookupStr ((lookupStr (Captains.mk []).byGw "5").getD []) "Banter Bros" =
      none ∧
    pointsFor (fun e _ => .okPoints (if e = 1 then 45 else 60)) "5" 1 = 45 ∧
    pointsFor (fun e _ => .okPoints (if e = 1 then 45 else 60)) "5" 2 = 60 ∧
    (45 : Int) < 60 ∧
    ((scoreTeam "5" ⟨[]⟩ (fun e _ => .okPoints (if e = 1 then 45 else 60))
        "Banter Bros" ⟨1, "BAB-A", "p"⟩ ⟨2, "BAB-B", "q"⟩).captainEntryId = 1 ∧
     (scoreTeam "5" ⟨[]⟩ (fun e _ => .okPoints (if e = 1 then 45 else 60))
        "Banter Bros" ⟨1, "BAB-A", "p"⟩ ⟨2, "BAB-B", "q"⟩).teamPoints = 150) := by
  refine ⟨by decide, by decide, by decide, by decide, by decide, ?_, ?_⟩
  · have h := claim1_auto_captain_lower "5" ⟨[]⟩
      (fun e _ => .okPoints (if e = 1 then 45 else 60))
      ⟨"Banter Bros", [⟨1, "BAB-A", "p"⟩, ⟨2, "BAB-B", "q"⟩], none⟩
      ⟨1, "BAB-A", "p"⟩ ⟨2, "BAB-B", "q"⟩ 45 60 (by decide) (by decide)
      (by decide) (by decide) (by decide)
    exact h.2.2.1
  · have h := claim1_auto_captain_lower "5" ⟨[]⟩
      (fun e _ => .okPoints (if e = 1 then 45 else 60))
      ⟨"Banter Bros", [⟨1, "BAB-A", "p"⟩, ⟨2, "BAB-B", "q"⟩], none⟩
      ⟨1, "BAB-A", "p"⟩ ⟨2, "BAB-B", "q"⟩ 45 60 (by decide) (by decide)
      (by decide) (by decide) (by decide)
    exact h.2.2.2.2

theorem autoCaptainId_mem (m1 m2 : Member) (pts1 pts2 : Int) :
    autoCaptainId m1 m2 pts1 pts2 = m1.entryId ∨
    autoCaptainId m1 m2 pts1 pts2 = m2.entryId := by
  unfold autoCaptainId
  split_ifs <;> simp

/-- Claim C2: an explicit captain entry id assigned for the gameweek that
matches neither member makes the captain rule fall back to automatic
selection: the result is auto-flagged, its captain is the automatic
choice (lower scorer, tie by lexicographically smaller name) — one of
the two members, never the invalid id — and the total uses that
member's points. -/
theorem claim2_invalid_captain_falls_back (gwKey : String) (caps : Captains)
    (u : Upstream) (p : Pair) (m1 m2 : Member) (cid : Int)
    (hm : p.members = [m1, m2])
    (hcid : lookupStr ((lookupStr caps.byGw gwKey).getD []) p.name = some cid)
    (h1 : cid ≠ m1.entryId) (h2 : cid ≠ m2.entryId) :
    resultFor gwKey caps u p = .ok (scoreTeam gwKey caps u p.name m1 m2) ∧
    (scoreTeam gwKey caps u p.name m1 m2).autoLowest = true ∧
    (scoreTeam gwKey caps u p.name m1 m2).captainEntryId =
      autoCaptainId m1 m2 (pointsFor u gwKey m1.entryId)
        (pointsFor u gwKey m2.entryId) ∧
    ((scoreTeam gwKey caps u p.name m1 m2).captainEntryId = m1.entryId ∨
     (scoreTeam gwKey caps u p.name m1 m2).captainEntryId = m2.entryId) ∧
    (m1.entryId ≠ cid ∧ m2.entryId ≠ cid →
      (scoreTeam gwKey caps u p.name m1 m2).captainEntryId ≠ cid) ∧
    (scoreTeam gwKey caps u p.name m1 m2).teamPoints =
      pointsFor u gwKey m1.entryId + pointsFor u gwKey m2.entryId +
        (if autoCaptainId m1 m2 (pointsFor u gwKey m1.entryId)
              (pointsFor u gwKey m2.entryId) = m1.entryId
         then pointsFor u gwKey m1.entryId
         else pointsFor u gwKey m2.entryId) := by
  have hfi : isFalsyOrInvalid (some cid) m1.entryId m2.entryId = true := by
    simp [isFalsyOrInvalid, h1, h2]
  refine ⟨by simp [resultFor, hm], ?_, ?_, ?_, ?_, ?_⟩
  · simp [scoreTeam, hcid, hfi]
  · simp [scoreTeam, hcid, hfi]
  · have h := autoCaptainId_mem m1 m2 (pointsFor u gwKey m1.entryId)
      (pointsFor u gwKey m2.entryId)
    rcases h with h | h <;> simp [scoreTeam, hcid, hfi, h]
  · rintro ⟨g1, g2⟩
    have h := autoCaptainId_mem m1 m2 (pointsFor u gwKey m1.entryId)
      (pointsFor u gwKey m2.entryId)
    rcases h with h | h <;> simp [scoreTeam, hcid, hfi, h]
    · exact g1
    · exact g2
  · have h := autoCaptainId_mem m1 m2 (pointsFor u gwKey m1.entryId)
      (pointsFor u gwKey m2.entryId)
    rcases h with h | h
    · simp [scoreTeam, hcid, hfi, h]
    · by_cases he : autoCaptainId m1 m2 (pointsFor u gwKey m1.entryId)
          (pointsFor u gwKey m2.entryId) = m1.entryId
      · simp [scoreTeam, hcid, hfi, he]
      · have hne : m2.entryId ≠ m1.entryId := by rw [← h]; exact he
        simp [scoreTeam, hcid, hfi, h, hne, he]

/-- Witness for C2: stored captain id 999 matches neither member (ids 1
and 2); the result is the automatic selection. -/
theorem claim2_invalid_captain_falls_back_witness :
    (⟨"T", [⟨1, "A", "p"⟩, ⟨2, "B", "q"⟩], none⟩ : Pair).members =
      [⟨1, "A", "p"⟩, ⟨2, "B", "q"⟩] ∧
    lookupStr
      ((lookupStr (Captains.mk [("5", [("T", 999)])]).byGw "5").getD []) "T" =
      some 999 ∧
    (999 : Int) ≠ 1 ∧ (999 : Int) ≠ 2 ∧
    ((scoreTeam "5" ⟨[("5", [("T", 999)])]⟩
        (fun e _ => .okPoints (if e = 1 then 45 else 60)) "T"
        ⟨1, "A", "p"⟩ ⟨2, "B", "q"⟩).autoLowest = true ∧
     (scoreTeam "5" ⟨[("5", [("T", 999)])]⟩
        (fun e _ => .okPoints (if e = 1 then 45 else 60)) "T"
        ⟨1, "A", "p"⟩ ⟨2, "B", "q"⟩).captainEntryId ≠ 999) := by
  have h := claim2_invalid_captain_falls_back "5" ⟨[("5", [("T", 999)])]⟩
    (fun e _ => .okPoints (if e = 1 then 45 else 60))
    ⟨"T", [⟨1, "A", "p"⟩, ⟨2, "B", "q"⟩], none⟩ ⟨1, "A", "p"⟩ ⟨2, "B", "q"⟩
    999 (by decide) (by decide) (by decide) (by decide)
  exact ⟨by decide, by decide, by decide, by decide, h.2.1,
    h.2.2.2.2.1 (by decide)⟩

/-- Claim C3: whenever the captain is auto-selected (`autoLowest`), equal
fetched points give the member whose (case-insensitively compared)
squad name is lexicographically no greater than the other's, and
unequal points give the strictly lower scorer. -/
theorem claim3_auto_selection_rule (gwKey : String) (caps : Captains)
    (u : Upstream) (tn : String) (m1 m2 : Member)
    (hauto : (scoreTeam gwKey caps u tn m1 m2).autoLowest = true) :
    (pointsFor u gwKey m1.entryId = pointsFor u gwKey m2.entryId →
      ((scoreTeam gwKey caps u tn m1 m2).captainEntryId = m1.entryId ∧
        jsStrLe (lowerStr m1.entryName) (lowerStr m2.entryName) = true) ∨
      ((scoreTeam gwKey caps u tn m1 m2).captainEntryId = m2.entryId ∧
        jsStrLe (lowerStr m2.entryName) (lowerStr m1.entryName) = true)) ∧
    (pointsFor u gwKey m1.entryId < pointsFor u gwKey m2.entryId →
      (scoreTeam gwKey caps u tn m1 m2).captainEntryId = m1.entryId) ∧
    (pointsFor u gwKey m2.entryId < pointsFor u gwKey m1.entryId →
      (scoreTeam gwKey caps u tn m1 m2).captainEntryId = m2.entryId) := by
  simp only [scoreTeam] at hauto ⊢
  refine ⟨?_, ?_, ?_⟩
  · intro heq
    by_cases hle : jsStrLe (lowerStr m1.entryName) (lowerStr m2.entryName) = true
    · left
      constructor
      · simp [hauto, autoCaptainId, heq, hle]
      · exact hle
    · right
      constructor
      · simp [hauto, autoCaptainId, heq, hle]
      · rcases jsStrLe_total (lowerStr m1.entryName) (lowerStr m2.entryName)
          with h | h
        · exact absurd h hle
        · exact h
  · intro hlt
    simp [hauto, autoCaptainId, hlt]
  · intro hlt
    have hn : ¬ pointsFor u gwKey m1.entryId < pointsFor u gwKey m2.entryId :=
      not_lt_of_lt hlt
    simp [hauto, autoCaptainId, hlt, hn]

/-- Witness for C3: equal points (50 each), auto selection; the captain
is the member with the smaller lowercased squad name ("bab-a" < "bab-b"). -/
theorem claim3_auto_selection_rule_witness :
    (scoreTeam "5" ⟨[]⟩ (fun _ _ => .okPoints 50) "T"
      ⟨1, "BAB-B", "p"⟩ ⟨2, "BAB-A", "q"⟩).autoLowest = true ∧
    (pointsFor (fun _ _ => .okPoints 50) "5" 1 =
        pointsFor (fun _ _ => .okPoints 50) "5" 2 →
      ((scoreTeam "5" ⟨[]⟩ (fun _ _ => .okPoints 50) "T"
          ⟨1, "BAB-B", "p"⟩ ⟨2, "BAB-A", "q"⟩).captainEntryId = 1 ∧
        jsStrLe (lowerStr "BAB-B") (lowerStr "BAB-A") = true) ∨
      ((scoreTeam "5" ⟨[]⟩ (fun _ _ => .okPoints 50) "T"
          ⟨1, "BAB-B", "p"⟩ ⟨2, "BAB-A", "q"⟩).captainEntryId = 2 ∧
        jsStrLe (lowerStr "BAB-A") (lowerStr "BAB-B") = true)) := by
  have h := claim3_auto_selection_rule "5" ⟨[]⟩ (fun _ _ => .okPoints 50) "T"
    ⟨1, "BAB-B", "p"⟩ ⟨2, "BAB-A", "q"⟩ (by decide)
  exact ⟨by decide, h.1⟩

/-! ### Ranking: sortedness and stability -/

theorem keepsBefore_false_elim {a b : TeamResult}
    (h : keepsBefore a b = false) :
    ∃ x y, a.teamPointsOpt = some x ∧ b.teamPointsOpt = some y ∧ x < y := by
  unfold keepsBefore at h
  cases ha : a.teamPointsOpt with
  | none => rw [ha] at h; simp at h
  | some x =>
    cases hb : b.teamPointsOpt with
    | none => rw [ha, hb] at h; simp at h
    | some y =>
      rw [ha, hb] at h
      simp only [decide_eq_false_iff_not, not_le] at h
      exact ⟨x, y, rfl, rfl, h⟩

theorem keepsBefore_ok_iff {a b : TeamResult} (ha : a.isOk = true)
    (hb : b.isOk = true) :
    keepsBefore a b = true ↔ b.teamPointsD ≤ a.teamPointsD := by
  unfold TeamResult.isOk at ha hb
  rcases Option.isSome_iff_exists.mp ha with ⟨x, hx⟩
  rcases Option.isSome_iff_exists.mp hb with ⟨y, hy⟩
  unfold keepsBefore TeamResult.teamPointsD
  rw [hx, hy]
  simp

theorem filter_orderedInsert_pos (p : TeamResult → Bool) (a : TeamResult)
    (hpa : p a = true)
    (hskip : ∀ b, keepsBefore a b = false → p b = false) :
    ∀ l : List TeamResult,
      ((l.orderedInsert (fun x y => keepsBefore x y = true) a).filter p) =
        a :: l.filter p
  | [] => by simp [List.orderedInsert, hpa]
  | b :: l => by
    by_cases h : keepsBefore a b = true
    · simp [List.orderedInsert, h, hpa]
    · have hpb : p b = false := hskip b (by simpa using h)
      simp [List.orderedInsert, h, hpb,
        filter_orderedInsert_pos p a hpa hskip l]

theorem filter_orderedInsert_neg (p : TeamResult → Bool) (a : TeamResult)
    (hpa : p a = false) :
    ∀ l : List TeamResult,
      ((l.orderedInsert (fun x y => keepsBefore x y = true) a).filter p) =
        l.filter p
  | [] => by simp [List.orderedInsert, hpa]
  | b :: l => by
    by_cases h : keepsBefore a b = true
    · simp [List.orderedInsert, h, hpa]
    · simp [List.orderedInsert, List.filter_cons, h,
        filter_orderedInsert_neg p a hpa l]

/-- Stability of the ranking step: the subsequence of rows carrying any
fixed `teamPoints` value is exactly their input subsequence. -/
theorem filter_sortResults (k : Int) :
    ∀ l : List TeamResult,
      (sortResults l).filter (fun x => x.teamPointsOpt == some k) =
        l.filter (fun x => x.teamPointsOpt == some k)
  | [] => rfl
  | a :: l => by
    show ((List.insertionSort _ l).orderedInsert _ a).filter _ = _
    by_cases hpa : (a.teamPointsOpt == some k) = true
    · rw [filter_orderedInsert_pos _ a hpa]
      · have ih := filter_sortResults k l
        simp only [sortResults] at ih
        rw [ih]
        simp [List.filter_cons, hpa]
      · intro b hb
        rcases keepsBefore_false_elim hb with ⟨x, y, hx, hy, hxy⟩
        have hxk : x = k := by
          rw [hx] at hpa; simpa using hpa
        subst hxk
        rw [hy]
        simp only [beq_eq_false_iff_ne, ne_eq, Option.some.injEq]
        omega
    · have hpa' : (a.teamPointsOpt == some k) = false := by
        simpa using hpa
      rw [filter_orderedInsert_neg _ a hpa']
      have ih := filter_sortResults k l
      simp only [sortResults] at ih
      rw [ih]
      simp [List.filter_cons, hpa']

theorem mem_orderedInsert_keeps {a c : TeamResult} {l : List TeamResult}
    (h : c ∈ l.orderedInsert (fun x y => keepsBefore x y = true) a) :
    c = a ∨ c ∈ l :=
  (List.mem_orderedInsert _).mp h

theorem sorted_orderedInsert_ok (a : TeamResult) :
    ∀ l : List TeamResult, a.isOk = true → (∀ x ∈ l, x.isOk = true) →
      l.Pairwise (fun x y => y.teamPointsD ≤ x.teamPointsD) →
      (l.orderedInsert (fun x y => keepsBefore x y = true) a).Pairwise
        (fun x y => y.teamPointsD ≤ x.teamPointsD)
  | [], _, _, _ => by simp [List.orderedInsert]
  | b :: l, ha, hok, hs => by
    have hb : b.isOk = true := hok b (List.mem_cons_self b l)
    rcases List.pairwise_cons.mp hs with ⟨hbl, hsl⟩
    by_cases h : keepsBefore a b = true
    · have hab : b.teamPointsD ≤ a.teamPointsD := (keepsBefore_ok_iff ha hb).mp h
      rw [List.orderedInsert, if_pos h]
      refine List.pairwise_cons.mpr ⟨?_, hs⟩
      intro c hc
      rcases List.mem_cons.mp hc with rfl | hcl
      · exact hab
      · exact le_trans (hbl c hcl) hab
    · have hba : a.teamPointsD ≤ b.teamPointsD := by
        rcases keepsBefore_false_elim (by simpa using h) with ⟨x, y, hx, hy, hxy⟩
        unfold TeamResult.teamPointsD
        rw [hx, hy]
        exact le_of_lt hxy
      rw [List.orderedInsert, if_neg h]
      refine List.pairwise_cons.mpr ⟨?_, ?_⟩
      · intro c hc
        rcases mem_orderedInsert_keeps hc with rfl | hcl
        · exact hba
        · exact hbl c hcl
      · exact sorted_orderedInsert_ok a l ha
          (fun x hx => hok x (List.mem_cons_of_mem b hx)) hsl

/-- When every row carries `teamPoints` (consistent comparator), the
ranking step yields a sequence sorted by `teamPoints`, descending. -/
theorem sorted_sortResults :
    ∀ l : List TeamResult, (∀ x ∈ l, x.isOk = true) →
      (sortResults l).Pairwise (fun x y => y.teamPointsD ≤ x.teamPointsD)
  | [], _ => List.Pairwise.nil
  | a :: l, hok => by
    show ((List.insertionSort _ l).orderedInsert _ a).Pairwise _
    refine sorted_orderedInsert_ok a _ (hok a (List.mem_cons_self a l)) ?_ ?_
    · intro x hx
      exact hok x (List.mem_cons_of_mem a ((List.mem_insertionSort _).mp hx))
    · exact sorted_sortResults l fun x hx => hok x (List.mem_cons_of_mem a hx)

/-- Claim C4: on a list of computed team results (each carrying `teamPoints`),
the ranking step produces a permutation of its input that is
monotonically non-increasing in `teamPoints` and stable: rows with
equal `teamPoints` keep their relative input order. -/
theorem claim4_ranking_sorted_stable (l : List TeamResult) (k : Int)
    (hok : ∀ x ∈ l, x.isOk = true) :
    (sortResults l).Pairwise (fun x y => y.teamPointsD ≤ x.teamPointsD) ∧
    (sortResults l).filter (fun x => x.teamPointsOpt == some k) =
      l.filter (fun x => x.teamPointsOpt == some k) ∧
    (sortResults l).Perm l :=
  ⟨sorted_sortResults l hok, filter_sortResults k l,
    List.perm_insertionSort _ l⟩

/-- Witness for C4: three rows with totals 5, 9, 5; the sorted output is
9, 5, 5 with the two 5-rows in input order. -/
theorem claim4_ranking_sorted_stable_witness :
    (∀ x ∈ [TeamResult.ok ⟨"B", [], 1, 2, true, 5⟩,
            TeamResult.ok ⟨"A", [], 2, 3, false, 9⟩,
            TeamResult.ok ⟨"C", [], 3, 1, true, 5⟩], x.isOk = true) ∧
    ((sortResults [TeamResult.ok ⟨"B", [], 1, 2, true, 5⟩,
            TeamResult.ok ⟨"A", [], 2, 3, false, 9⟩,
            TeamResult.ok ⟨"C", [], 3, 1, true, 5⟩]).Pairwise
        (fun x y => y.teamPointsD ≤ x.teamPointsD) ∧
      (sortResults [TeamResult.ok ⟨"B", [], 1, 2, true, 5⟩,
            TeamResult.ok ⟨"A", [], 2, 3, false, 9⟩,
            TeamResult.ok ⟨"C", [], 3, 1, true, 5⟩]).filter
          (fun x => x.teamPointsOpt == some 5) =
        [TeamResult.ok ⟨"B", [], 1, 2, true, 5⟩,
            TeamResult.ok ⟨"A", [], 2, 3, false, 9⟩,
            TeamResult.ok ⟨"C", [], 3, 1, true, 5⟩].filter
          (fun x => x.teamPointsOpt == some 5)) := by
  have h := claim4_ranking_sorted_stable
    [TeamResult.ok ⟨"B", [], 1, 2, true, 5⟩,
     TeamResult.ok ⟨"A", [], 2, 3, false, 9⟩,
     TeamResult.ok ⟨"C", [], 3, 1, true, 5⟩] 5 (by decide)
  exact ⟨by decide, h.1, h.2.1⟩

/-! ### Claim theorems: fetch isolation, result invariants, resolver -/

/-- Claim C6: a failed fetch or missing upstream points data yields a 0-point
result for that entry; an entry's recorded points depend only on its own
fetch outcome; and no failure shrinks the response — one result row per
pair regardless of the upstream oracle. -/
theorem claim6_fetch_failure_isolated (u v : Upstream) (gwKey : String)
    (e : Int) (pairs : List Pair) (caps : Captains) :
    ((u e gwKey = .fetchError ∨ u e gwKey = .okNoPoints) →
      pointsFor u gwKey e = 0) ∧
    (u e gwKey = v e gwKey → pointsFor u gwKey e = pointsFor v gwKey e) ∧
    (computeScoresForGw gwKey pairs caps u).length = pairs.length := by
  refine ⟨?_, ?_, ?_⟩
  · rintro (h | h) <;> simp [pointsFor, h]
  · intro h
    unfold pointsFor
    rw [h]
  · unfold computeScoresForGw sortResults
    rw [List.length_insertionSort, List.length_map]

/-- Witness for C6: a failing entry scores 0, an unrelated entry is
unaffected, and the row count is preserved. -/
theorem claim6_fetch_failure_isolated_witness :
    ((fun e _ => if e = 1 then FetchOutcome.fetchError else .okPoints 60 :
        Upstream) 1 "5" = .fetchError ∨
      (fun e _ => if e = 1 then FetchOutcome.fetchError else .okPoints 60 :
        Upstream) 1 "5" = .okNoPoints) ∧
    pointsFor (fun e _ => if e = 1 then .fetchError else .okPoints 60) "5" 1 =
      0 ∧
    (computeScoresForGw "5"
        [⟨"T", [⟨1, "A", "p"⟩, ⟨2, "B", "q"⟩], none⟩] ⟨[]⟩
        (fun e _ => if e = 1 then .fetchError else .okPoints 60)).length =
      1 := by
  have h := claim6_fetch_failure_isolated
    (fun e _ => if e = 1 then .fetchError else .okPoints 60)
    (fun e _ => if e = 1 then .fetchError else .okPoints 60) "5" 1
    [⟨"T", [⟨1, "A", "p"⟩, ⟨2, "B", "q"⟩], none⟩] ⟨[]⟩
  exact ⟨Or.inl (by decide), h.1 (Or.inl (by decide)), h.2.2⟩

theorem isFalsyOrInvalid_false_elim {cid : Option Int} {id1 id2 : Int}
    (h : isFalsyOrInvalid cid id1 id2 = false) :
    ∃ c, cid = some c ∧ (c = id1 ∨ c = id2) := by
  cases cid with
  | none => simp [isFalsyOrInvalid] at h
  | some c =>
    simp only [isFalsyOrInvalid, Bool.or_eq_false_iff, Bool.and_eq_false_iff,
      beq_eq_false_iff_ne, ne_eq, bne_eq_false_iff_eq] at h
    rcases h.2 with h2 | h2
    · exact ⟨c, rfl, Or.inl h2⟩
    · exact ⟨c, rfl, Or.inr h2⟩

theorem scoreTeam_captainPoints_eq (gwKey : String) (caps : Captains)
    (u : Upstream) (tn : String) (m1 m2 : Member) :
    (scoreTeam gwKey caps u tn m1 m2).captainPoints =
      if (scoreTeam gwKey caps u tn m1 m2).captainEntryId == m1.entryId
      then pointsFor u gwKey m1.entryId else pointsFor u gwKey m2.entryId :=
  rfl

theorem scoreTeam_captain_cases (gwKey : String) (caps : Captains)
    (u : Upstream) (tn : String) (m1 m2 : Member) :
    ((scoreTeam gwKey caps u tn m1 m2).captainEntryId = m1.entryId ∧
      (scoreTeam gwKey caps u tn m1 m2).captainPoints =
        pointsFor u gwKey m1.entryId) ∨
    ((scoreTeam gwKey caps u tn m1 m2).captainEntryId = m2.entryId ∧
      (scoreTeam gwKey caps u tn m1 m2).captainPoints =
        pointsFor u gwKey m2.entryId) := by
  have hcap : (scoreTeam gwKey caps u tn m1 m2).captainEntryId = m1.entryId ∨
      (scoreTeam gwKey caps u tn m1 m2).captainEntryId = m2.entryId := by
    by_cases hfi : isFalsyOrInvalid
        (lookupStr ((lookupStr caps.byGw gwKey).getD []) tn)
        m1.entryId m2.entryId = true
    · rcases autoCaptainId_mem m1 m2 (pointsFor u gwKey m1.entryId)
        (pointsFor u gwKey m2.entryId) with h | h
      · left; simp [scoreTeam, hfi, h]
      · right; simp [scoreTeam, hfi, h]
    · have hfi' : isFalsyOrInvalid
          (lookupStr ((lookupStr caps.byGw gwKey).getD []) tn)
          m1.entryId m2.entryId = false := by simpa using hfi
      rcases isFalsyOrInvalid_false_elim hfi' with ⟨c, hc, hor⟩
      have hfic : isFalsyOrInvalid (some c) m1.entryId m2.entryId = false := by
        rw [← hc]; exact hfi'
      rcases hor with h | h <;> subst h
      · left; simp [scoreTeam, hc, hfic]
      · right; simp [scoreTeam, hc, hfic]
  by_cases hc1 : (scoreTeam gwKey caps u tn m1 m2).captainEntryId = m1.entryId
  · left
    refine ⟨hc1, ?_⟩
    rw [scoreTeam_captainPoints_eq]
    simp [hc1]
  · rcases hcap with h | h
    · exact absurd h hc1
    · right
      refine ⟨h, ?_⟩
      rw [scoreTeam_captainPoints_eq]
      simp [hc1]

theorem scoreTeam_teamPoints_eq (gwKey : String) (caps : Captains)
    (u : Upstream) (tn : String) (m1 m2 : Member) :
    (scoreTeam gwKey caps u tn m1 m2).teamPoints =
      pointsFor u gwKey m1.entryId + pointsFor u gwKey m2.entryId +
        (scoreTeam gwKey caps u tn m1 m2).captainPoints :=
  rfl

theorem scoreTeam_members_eq (gwKey : String) (caps : Captains)
    (u : Upstream) (tn : String) (m1 m2 : Member) :
    (scoreTeam gwKey caps u tn m1 m2).members =
      [⟨m1.entryId, m1.entryName, m1.managerName, pointsFor u gwKey m1.entryId⟩,
       ⟨m2.entryId, m2.entryName, m2.managerName,
         pointsFor u gwKey m2.entryId⟩] :=
  rfl

/-- Claim C9: every full result row of `computeScoresForGw` has exactly two
member entries; its captain id is one of their entry ids with
`captainPoints` that member's fetched points; and
`teamPoints = pts1 + pts2 + captainPoints`, hence bounded between
`pts1 + pts2 + min` and `pts1 + pts2 + max` of the two. -/
theorem claim9_team_result_invariants (gwKey : String) (pairs : List Pair)
    (caps : Captains) (u : Upstream) (res : OkResult)
    (hmem : TeamResult.ok res ∈ computeScoresForGw gwKey pairs caps u) :
    ∃ a b : MemberOut, res.members = [a, b] ∧
      ((res.captainEntryId = a.entryId ∧ res.captainPoints = a.points) ∨
       (res.captainEntryId = b.entryId ∧ res.captainPoints = b.points)) ∧
      res.teamPoints = a.points + b.points + res.captainPoints ∧
      a.points + b.points + min a.points b.points ≤ res.teamPoints ∧
      res.teamPoints ≤ a.points + b.points + max a.points b.points := by
  unfold computeScoresForGw sortResults at hmem
  have hmem2 : TeamResult.ok res ∈ pairs.map (resultFor gwKey caps u) :=
    (List.mem_insertionSort _).mp hmem
  rcases List.mem_map.mp hmem2 with ⟨p, _, hres⟩
  unfold resultFor at hres
  split at hres
  case h_2 => exact absurd hres (by simp)
  case h_1 m1 m2 heq =>
    have hres' : res = scoreTeam gwKey caps u p.name m1 m2 :=
      (TeamResult.ok.injEq _ _).mp hres.symm
    subst hres'
    refine ⟨⟨m1.entryId, m1.entryName, m1.managerName,
        pointsFor u gwKey m1.entryId⟩,
      ⟨m2.entryId, m2.entryName, m2.managerName, pointsFor u gwKey m2.entryId⟩,
      scoreTeam_members_eq gwKey caps u p.name m1 m2, ?_, ?_, ?_, ?_⟩
    · exact scoreTeam_captain_cases gwKey caps u p.name m1 m2
    · exact scoreTeam_teamPoints_eq gwKey caps u p.name m1 m2
    · rcases scoreTeam_captain_cases gwKey caps u p.name m1 m2 with ⟨_, h⟩ | ⟨_, h⟩ <;>
        rw [scoreTeam_teamPoints_eq, h] <;> simp
    · rcases scoreTeam_captain_cases gwKey caps u p.name m1 m2 with ⟨_, h⟩ | ⟨_, h⟩ <;>
        rw [scoreTeam_teamPoints_eq, h] <;> simp

/-- Witness for C9 on a concrete run. -/
theorem claim9_team_result_invariants_witness :
    TeamResult.ok (scoreTeam "5" ⟨[]⟩
        (fun e _ => .okPoints (if e = 1 then 45 else 60)) "T"
        ⟨1, "A", "p"⟩ ⟨2, "B", "q"⟩) ∈
      computeScoresForGw "5" [⟨"T", [⟨1, "A", "p"⟩, ⟨2, "B", "q"⟩], none⟩]
        ⟨[]⟩ (fun e _ => .okPoints (if e = 1 then 45 else 60)) ∧
    ∃ a b : MemberOut,
      (scoreTeam "5" ⟨[]⟩ (fun e _ => .okPoints (if e = 1 then 45 else 60))
          "T" ⟨1, "A", "p"⟩ ⟨2, "B", "q"⟩).members = [a, b] ∧
      (((scoreTeam "5" ⟨[]⟩ (fun e _ => .okPoints (if e = 1 then 45 else 60))
          "T" ⟨1, "A", "p"⟩ ⟨2, "B", "q"⟩).captainEntryId = a.entryId ∧
        (scoreTeam "5" ⟨[]⟩ (fun e _ => .okPoints (if e = 1 then 45 else 60))
          "T" ⟨1, "A", "p"⟩ ⟨2, "B", "q"⟩).captainPoints = a.points) ∨
       ((scoreTeam "5" ⟨[]⟩ (fun e _ => .okPoints (if e = 1 then 45 else 60))
          "T" ⟨1, "A", "p"⟩ ⟨2, "B", "q"⟩).captainEntryId = b.entryId ∧
        (scoreTeam "5" ⟨[]⟩ (fun e _ => .okPoints (if e = 1 then 45 else 60))
          "T" ⟨1, "A", "p"⟩ ⟨2, "B", "q"⟩).captainPoints = b.points)) ∧
      (scoreTeam "5" ⟨[]⟩ (fun e _ => .okPoints (if e = 1 then 45 else 60))
          "T" ⟨1, "A", "p"⟩ ⟨2, "B", "q"⟩).teamPoints =
        a.points + b.points +
          (scoreTeam "5" ⟨[]⟩
            (fun e _ => .okPoints (if e = 1 then 45 else 60))
            "T" ⟨1, "A", "p"⟩ ⟨2, "B", "q"⟩).captainPoints ∧
      a.points + b.points + min a.points b.points ≤
        (scoreTeam "5" ⟨[]⟩ (fun e _ => .okPoints (if e = 1 then 45 else 60))
          "T" ⟨1, "A", "p"⟩ ⟨2, "B", "q"⟩).teamPoints ∧
      (scoreTeam "5" ⟨[]⟩ (fun e _ => .okPoints (if e = 1 then 45 else 60))
          "T" ⟨1, "A", "p"⟩ ⟨2, "B", "q"⟩).teamPoints ≤
        a.points + b.points + max a.points b.points := by
  refine ⟨by decide, ?_⟩
  exact claim9_team_result_invariants "5"
    [⟨"T", [⟨1, "A", "p"⟩, ⟨2, "B", "q"⟩], none⟩] ⟨[]⟩
    (fun e _ => .okPoints (if e = 1 then 45 else 60))
    (scoreTeam "5" ⟨[]⟩ (fun e _ => .okPoints (if e = 1 then 45 else 60))
      "T" ⟨1, "A", "p"⟩ ⟨2, "B", "q"⟩) (by decide)

/-- Claim C5: a configured team whose prefix matches any number of standings
rows other than two is flagged with an error entry and an empty member
list — never a half-populated team — while every other configured team
still contributes its own resolution to the output. -/
theorem claim5_resolver_flags_invalid (standings : List Entry)
    (tp : String × String) (hmem : tp ∈ ABBREVIATIONS)
    (hcount :
      (standings.filter (fun r => hasPrefix r.entry_name tp.2)).length ≠ 2) :
    pairFor standings tp =
      ⟨tp.1, [],
        some ("Found " ++
          toString
            (standings.filter (fun r => hasPrefix r.entry_name tp.2)).length ++
          " squads with prefix " ++ tp.2)⟩ ∧
    pairFor standings tp ∈ buildPairs standings ∧
    (buildPairs standings).length = ABBREVIATIONS.length ∧
    ∀ tq ∈ ABBREVIATIONS, pairFor standings tq ∈ buildPairs standings := by
  refine ⟨?_, ?_, ?_, ?_⟩
  · unfold pairFor
    rw [if_pos hcount]
  · exact List.mem_map.mpr ⟨tp, hmem, rfl⟩
  · exact List.length_map _ _
  · intro tq hq
    exact List.mem_map.mpr ⟨tq, hq, rfl⟩

/-- Witness for C5: standings with exactly one `BAB-` squad; the
"Banter Bros" team is flagged invalid with no members. -/
theorem claim5_resolver_flags_invalid_witness :
    ("Banter Bros", "BAB") ∈ ABBREVIATIONS ∧
    (([⟨7, "BAB-Solo", "Al"⟩] : List Entry).filter
        (fun r => hasPrefix r.entry_name "BAB")).length ≠ 2 ∧
    pairFor [⟨7, "BAB-Solo", "Al"⟩] ("Banter Bros", "BAB") =
      ⟨"Banter Bros", [], some "Found 1 squads with prefix BAB"⟩ ∧
    pairFor [⟨7, "BAB-Solo", "Al"⟩] ("Banter Bros", "BAB") ∈
      buildPairs [⟨7, "BAB-Solo", "Al"⟩] := by
  have h := claim5_resolver_flags_invalid [⟨7, "BAB-Solo", "Al"⟩]
    ("Banter Bros", "BAB") (by decide) (by decide)
  refine ⟨by decide, by decide, ?_, h.2.1⟩
  rw [h.1]
  decide

/-! ### Claim theorems: HTTP routes -/

theorem find_replace {β : Type} (k : String) (v : β) :
    ∀ l : List (String × β), (l.find? (fun p => p.1 == k)).isSome = true →
      (l.map (fun p => if p.1 == k then (k, v) else p)).find?
        (fun p => p.1 == k) = some (k, v)
  | [], h => by simp [List.find?] at h
  | (a, b) :: l, h => by
    by_cases hk : (a == k) = true
    · simp [List.find?, hk]
    · have h' : (l.find? (fun p => p.1 == k)).isSome = true := by
        rw [List.find?] at h
        simp only [hk] at h
        exact h
      simp only [List.map, List.find?, hk, if_neg, if_false]
      rw [if_neg (by simp [hk])]
      simp only [List.find?, hk]
      exact find_replace k v l h'

theorem lookupStr_setKey {β : Type} (l : List (String × β)) (k : String)
    (v : β) : lookupStr (setKey l k v) k = some v := by
  unfold setKey
  by_cases h : (l.find? (fun p => p.1 == k)).isSome = true
  · rw [if_pos h]
    unfold lookupStr
    rw [find_replace k v l h]
    rfl
  · rw [if_neg h]
    unfold lookupStr
    have hnone : l.find? (fun p => p.1 == k) = none := by
      cases heq : l.find? (fun p => p.1 == k) with
      | none => rfl
      | some p => rw [heq] at h; simp at h
    induction l with
    | nil => simp [List.find?]
    | cons a l ih =>
      have ha : (a.1 == k) = false := by
        rw [List.find?] at hnone
        cases hae : (a.1 == k) with
        | false => rfl
        | true => rw [hae] at hnone; simp at hnone
      have hl : l.find? (fun p => p.1 == k) = none := by
        rw [List.find?] at hnone
        rw [ha] at hnone
        exact hnone
      have hl' : ¬(l.find? (fun p => p.1 == k)).isSome = true := by
        rw [hl]; simp
      simp only [List.cons_append, List.find?, ha]
      exact ih hl' hl

/-- Claim C8: `GET /api/gw/{gw}` rejects with a 400 client error — computing
no results and leaving state untouched — exactly when the path segment
parses to no integer or to one outside 1–38; every segment parsing to
an in-range integer is accepted and answered with the computed
results. -/
theorem claim8_gw_route_validation (s : String)
    (body : Option (List (String × Int))) (pairs : List Pair) (u : Upstream)
    (st : Captains) :
    ((parseIntJs s = none ∨ ∃ g, parseIntJs s = some g ∧ (g < 1 ∨ 38 < g)) →
      handleRequest "GET" ["api", "gw", s] body pairs u st =
        (.badRequest "Invalid gameweek", st)) ∧
    (∀ g : Int, parseIntJs s = some g → 1 ≤ g → g ≤ 38 →
      handleRequest "GET" ["api", "gw", s] body pairs u st =
        (.okGw g (computeScoresForGw s pairs st u), st)) := by
  constructor
  · rintro (h | ⟨g, hg, hrange⟩)
    · simp [handleRequest, handleApi, h]
    · simp [handleRequest, handleApi, hg, hrange]
  · intro g hg h1 h38
    have hr : ¬(g < 1 ∨ 38 < g) := by omega
    simp [handleRequest, handleApi, hg, hr]

/-- Witness for C8: gameweek 0 is rejected, gameweek 7 is accepted. -/
theorem claim8_gw_route_validation_witness :
    (parseIntJs "0" = none ∨
      ∃ g, parseIntJs "0" = some g ∧ (g < 1 ∨ 38 < g)) ∧
    handleRequest "GET" ["api", "gw", "0"] none [] (fun _ _ => .fetchError)
        ⟨[]⟩ =
      (.badRequest "Invalid gameweek", ⟨[]⟩) ∧
    parseIntJs "7" = some 7 ∧
    handleRequest "GET" ["api", "gw", "7"] none [] (fun _ _ => .fetchError)
        ⟨[]⟩ =
      (.okGw 7 (computeScoresForGw "7" [] ⟨[]⟩ (fun _ _ => .fetchError)),
        ⟨[]⟩) := by
  have h0 := claim8_gw_route_validation "0" none [] (fun _ _ => .fetchError)
    ⟨[]⟩
  have h7 := claim8_gw_route_validation "7" none [] (fun _ _ => .fetchError)
    ⟨[]⟩
  exact ⟨Or.inr ⟨0, by decide, by decide⟩,
    h0.1 (Or.inr ⟨0, by decide, by decide⟩), by decide,
    h7.2 7 (by decide) (by decide) (by decide)⟩

/-- Claim C10: the `/api/gw/:gw` handler validates the parsed integer but
passes the literal path segment to the captain lookup: with captains
stored under key `"5"` for team `"T"`, segments `"05"` and `"5abc"` are
both accepted as gameweek 5 yet produce the auto-selected captain
(member 102, the lower scorer), while segment `"5"` applies the stored
explicit captain 101. -/
theorem claim10_literal_segment_captain_lookup :
    handleRequest "GET" ["api", "gw", "05"] none
        [⟨"T", [⟨101, "AA", "P1"⟩, ⟨102, "AB", "P2"⟩], none⟩]
        (fun e _ => .okPoints (if e = 101 then 10 else 5))
        ⟨[("5", [("T", 101)])]⟩ =
      (.okGw 5
        [.ok ⟨"T", [⟨101, "AA", "P1", 10⟩, ⟨102, "AB", "P2", 5⟩],
          102, 5, true, 20⟩],
        ⟨[("5", [("T", 101)])]⟩) ∧
    handleRequest "GET" ["api", "gw", "5abc"] none
        [⟨"T", [⟨101, "AA", "P1"⟩, ⟨102, "AB", "P2"⟩], none⟩]
        (fun e _ => .okPoints (if e = 101 then 10 else 5))
        ⟨[("5", [("T", 101)])]⟩ =
      (.okGw 5
        [.ok ⟨"T", [⟨101, "AA", "P1", 10⟩, ⟨102, "AB", "P2", 5⟩],
          102, 5, true, 20⟩],
        ⟨[("5", [("T", 101)])]⟩) ∧
    handleRequest "GET" ["api", "gw", "5"] none
        [⟨"T", [⟨101, "AA", "P1"⟩, ⟨102, "AB", "P2"⟩], none⟩]
        (fun e _ => .okPoints (if e = 101 then 10 else 5))
        ⟨[("5", [("T", 101)])]⟩ =
      (.okGw 5
        [.ok ⟨"T", [⟨101, "AA", "P1", 10⟩, ⟨102, "AB", "P2", 5⟩],
          101, 10, false, 25⟩],
        ⟨[("5", [("T", 101)])]⟩) := by
  refine ⟨?_, ?_, ?_⟩ <;> decide

/-- Counterexample to C7 as stated: a `PUT /api/captains/5` with a valid
JSON mapping is answered 404 and writes nothing — only POST is routed. -/
theorem claim7_put_counterexample :
    handleRequest "PUT" ["api", "captains", "5"] (some [("T", 7)]) []
        (fun _ _ => .fetchError) ⟨[]⟩ =
      (.notFound, ⟨[]⟩) ∧
    lookupStr (Captains.mk []).byGw "5" = none := by
  decide

/-- Claim C7 (amended): `POST /captains/{gw}` writes the explicit captain
assignments for the gameweek, `GET /captains/{gw}` reads them back, and
`PUT` is not handled — it gets a 404 and leaves the store unchanged. -/
theorem claim7_captains_post_get_put (gwKey : String)
    (m : List (String × Int)) (pairs pairs2 : List Pair) (u u2 : Upstream)
    (st : Captains) (body2 : Option (List (String × Int))) :
    handleRequest "POST" ["api", "captains", gwKey] (some m) pairs u st =
      (.okStatus, ⟨setKey st.byGw gwKey m⟩) ∧
    handleRequest "GET" ["api", "captains", gwKey] body2 pairs2 u2
        ⟨setKey st.byGw gwKey m⟩ =
      (.okCaptains m, ⟨setKey st.byGw gwKey m⟩) ∧
    handleRequest "PUT" ["api", "captains", gwKey] (some m) pairs u st =
      (.notFound, st) := by
  refine ⟨?_, ?_, ?_⟩
  · simp [handleRequest, handleApi]
  · simp [handleRequest, handleApi, lookupStr_setKey]
  · simp [handleRequest, handleApi]
